import Mathlib

/-!
Shallow embedding of the core logic of `src/app/page.tsx` (random name-pair
selector): CSV ingestion, the pairing state (all names, remaining pool,
selection history, current pair), and the draw / remove / reset transitions.

Randomness in `selectRandomPair` (the JS `[...remainingNames].sort(() =>
Math.random() - 0.5)` shuffle) is modelled by passing the shuffled list as an
explicit parameter; theorems that depend on it assume the parameter is a
permutation of the remaining pool, which is the only property the JS shuffle
guarantees.
-/

namespace NameSelector

/-- `interface SelectedPair { name1; name2; round }` from the source. -/
structure SelectedPair where
  name1 : String
  name2 : String
  round : Nat
deriving DecidableEq

/-- The four React state cells that make up the pairing state machine:
`allNames`, `remainingNames`, `selectedPairs`, `currentPair`. -/
structure AppState where
  allNames : List String
  remainingNames : List String
  selectedPairs : List SelectedPair
  currentPair : Option SelectedPair
deriving DecidableEq

/-- The initial values of the four `useState` cells: all empty / null. -/
def initialAppState : AppState :=
  { allNames := [], remainingNames := [], selectedPairs := [], currentPair := none }

/-- JavaScript `str.split(sep)` on a character class, as a function on the
character sequence: splitting on every matching character, keeping empty
fragments (so `",a".split(/[,;]/)` is `["", "a"]`). -/
def jsSplit (p : Char → Bool) : List Char → List (List Char)
  | [] => [[]]
  | c :: cs =>
    match jsSplit p cs with
    | r :: rs => if p c then [] :: r :: rs else (c :: r) :: rs
    | [] => [[]]

/-- The whitespace characters relevant to `String.prototype.trim` for the
plain-text inputs this app handles (ASCII whitespace). -/
def isJsWhitespace (c : Char) : Bool :=
  c == ' ' || c == '\t' || c == '\n' || c == '\r' || c == '\x0b' || c == '\x0c'

/-- JavaScript `str.trim()`: drop whitespace from both ends. -/
def trimChars (l : List Char) : List Char :=
  ((l.dropWhile isJsWhitespace).reverse.dropWhile isJsWhitespace).reverse

/-- `val.trim().replace(/"/g, "")`: trim, then delete every double quote. -/
def trimStripQuotes (l : List Char) : List Char :=
  (trimChars l).filter (fun c => c != '"')

/-- Tokens contributed by one line: `line.split(/[,;]/)`, then trim and strip
quotes, keeping only non-empty results (the `if (val && val.length > 0)`). -/
def lineTokens (line : List Char) : List (List Char) :=
  ((jsSplit (fun c => c == ',' || c == ';') line).map trimStripQuotes).filter
    (fun v => v != [])

/-- `[...new Set(names)]`: deduplicate keeping the first occurrence of each
element, preserving order. -/
def dedupFirst (l : List String) : List String :=
  l.foldl (fun acc n => if n ∈ acc then acc else acc ++ [n]) []

/-- `parseCSV` from the source: split the text on newlines, drop lines that are
empty after trimming, push each line's tokens in order, then deduplicate. -/
def parseCSV (text : String) : List String :=
  let lines :=
    (jsSplit (fun c => c == '\n') text.toList).filter (fun l => trimChars l != [])
  let names := lines.foldl (fun acc line => acc ++ lineTokens line) []
  dedupFirst (names.map String.mk)

/-- Outcome signalled by the upload handler: the success toast (with the count
of loaded names) or the "at least 2 names" error toast. -/
inductive UploadResult where
  | success (count : Nat)
  | validationError
deriving DecidableEq

/-- The state-relevant core of `handleFileUpload`, applied to the decoded file
text: parse, reject fewer than 2 names without touching state, otherwise
populate all four state cells. -/
def handleFileUpload (s : AppState) (text : String) : UploadResult × AppState :=
  let names := parseCSV text
  if names.length < 2 then
    (UploadResult.validationError, s)
  else
    (UploadResult.success names.length,
      { allNames := names, remainingNames := names, selectedPairs := [],
        currentPair := none })

/-- Outcome signalled by a draw: the "No more pairs" error toast, or the pair
that was drawn. -/
inductive DrawOutcome where
  | insufficientNames
  | drew (p : SelectedPair)
deriving DecidableEq

/-- `selectRandomPair` from the source. `shuffled` stands for the result of
`[...remainingNames].sort(() => Math.random() - 0.5)`, a permutation of
`remainingNames`. The new pair takes the first two shuffled names and round
number `selectedPairs.length + 1`; both names are filtered out of the
remaining pool. -/
def selectRandomPair (shuffled : List String) (s : AppState) :
    DrawOutcome × AppState :=
  if s.remainingNames.length < 2 then
    (DrawOutcome.insufficientNames, s)
  else
    let name1 := shuffled.getD 0 ""
    let name2 := shuffled.getD 1 ""
    let newPair : SelectedPair :=
      { name1 := name1, name2 := name2, round := s.selectedPairs.length + 1 }
    let updatedRemaining :=
      s.remainingNames.filter (fun name => name != name1 && name != name2)
    (DrawOutcome.drew newPair,
      { s with currentPair := some newPair,
               selectedPairs := s.selectedPairs ++ [newPair],
               remainingNames := updatedRemaining })

/-- `if (!list.includes(n)) list.push(n)`. -/
def addIfAbsent (l : List String) (n : String) : List String :=
  if n ∈ l then l else l ++ [n]

/-- `removePairFromHistory` from the source: drop every history entry whose
`round` equals the removed pair's round, push the removed pair's two names back
into the remaining pool when absent (name1 first, then name2 against the
updated list), and clear `currentPair` when its round matches. -/
def removePairFromHistory (pairToRemove : SelectedPair) (s : AppState) :
    AppState :=
  let updatedSelectedPairs :=
    s.selectedPairs.filter (fun pair => pair.round != pairToRemove.round)
  let updatedRemainingNames :=
    addIfAbsent (addIfAbsent s.remainingNames pairToRemove.name1)
      pairToRemove.name2
  let updatedCurrent :=
    match s.currentPair with
    | some cp => if cp.round = pairToRemove.round then none else some cp
    | none => none
  { s with selectedPairs := updatedSelectedPairs,
           remainingNames := updatedRemainingNames,
           currentPair := updatedCurrent }

/-- `resetApp` from the source: unconditionally empty all four state cells. -/
def resetApp (_s : AppState) : AppState := initialAppState

/-- The multiset of names mentioned by pairs currently in History. -/
def historyNames (s : AppState) : List String :=
  s.selectedPairs.foldr (fun p acc => p.name1 :: p.name2 :: acc) []

/-- The ingestion pipeline in the order the spec narrates it: split into lines,
discard lines empty after trimming, collect every surviving line's tokens
(split on comma/semicolon, trim, strip quotes, drop empties) across all lines
in first-seen order, then deduplicate preserving first occurrence. -/
def ingestSpec (text : String) : List String :=
  let lines :=
    (jsSplit (fun c => c == '\n') text.toList).filter (fun l => trimChars l != [])
  dedupFirst (((lines.map lineTokens).flatten).map String.mk)

/-! Concrete execution traces used below.

`churnState*`: load four names, draw, remove the drawn pair, draw again
(the Draw–RemovePair–Draw churn sequence). Each `selectRandomPair` is fed a
permutation of the remaining pool, as the JS shuffle produces. -/

/-- State after loading the four names A, B, C, D. -/
def churnState0 : AppState := (handleFileUpload initialAppState "A,B,C,D").2

/-- State after the first draw (shuffle order A, B, C, D). -/
def churnState1 : AppState := (selectRandomPair ["A","B","C","D"] churnState0).2

/-- State after removing the pair drawn in round 1. -/
def churnState2 : AppState := removePairFromHistory ⟨"A","B",1⟩ churnState1

/-- State after the second draw (shuffle order C, D, A, B). -/
def churnState3 : AppState := (selectRandomPair ["C","D","A","B"] churnState2).2

/-! `lossState*`: load six names, draw twice, remove the first pair, draw
again (which reissues round 2), then remove one of the two round-2 pairs. -/

/-- State after loading the six names A–F. -/
def lossState0 : AppState := (handleFileUpload initialAppState "A,B,C,D,E,F").2

/-- State after drawing (A, B) in round 1. -/
def lossState1 : AppState :=
  (selectRandomPair ["A","B","C","D","E","F"] lossState0).2

/-- State after drawing (C, D) in round 2. -/
def lossState2 : AppState := (selectRandomPair ["C","D","E","F"] lossState1).2

/-- State after removing the round-1 pair (A, B). -/
def lossState3 : AppState := removePairFromHistory ⟨"A","B",1⟩ lossState2

/-- State after drawing (E, F), which is assigned round 2 again. -/
def lossState4 : AppState := (selectRandomPair ["E","F","A","B"] lossState3).2

/-- State after removing the round-2 pair (C, D). -/
def lossState5 : AppState := removePairFromHistory ⟨"C","D",2⟩ lossState4

/-! Helper lemmas shared by the claim theorems. -/

theorem mem_addIfAbsent {l : List String} {a n : String} :
    a ∈ addIfAbsent l n ↔ a ∈ l ∨ a = n := by
  unfold addIfAbsent
  split
  · next h =>
    constructor
    · exact Or.inl
    · rintro (h' | rfl)
      · exact h'
      · exact h
  · simp [List.mem_append]

theorem filter_round_eq_self (l : List SelectedPair) (r : Nat)
    (h : ∀ q ∈ l, q.round ≠ r) :
    l.filter (fun q => q.round != r) = l :=
  List.filter_eq_self.mpr (fun a ha => by simpa [bne_iff_ne] using h a ha)

theorem mem_filter_round {l : List SelectedPair} {r : Nat} {q : SelectedPair}
    (hq : q ∈ l.filter (fun p => p.round != r)) : q.round ≠ r := by
  have := List.of_mem_filter hq
  simpa [bne_iff_ne] using this

theorem foldl_append_eq_flatten (f : List Char → List (List Char))
    (l : List (List Char)) (init : List (List Char)) :
    l.foldl (fun acc x => acc ++ f x) init = init ++ (l.map f).flatten := by
  induction l generalizing init with
  | nil => simp
  | cons x xs ih => simp [ih, List.append_assoc]

theorem dedupFirst_go_nodup (l : List String) (acc : List String)
    (h : acc.Nodup) :
    (l.foldl (fun acc n => if n ∈ acc then acc else acc ++ [n]) acc).Nodup := by
  induction l generalizing acc with
  | nil => exact h
  | cons x xs ih =>
    simp only [List.foldl_cons]
    by_cases hx : x ∈ acc
    · rw [if_pos hx]; exact ih acc h
    · rw [if_neg hx]
      exact ih _ (by simp [List.nodup_append, h, hx])

/-! Claim theorems. -/

/-- C1: the draw after a removal does NOT assign a round strictly greater than
every round previously issued. In the trace Draw, RemovePair, Draw on four
loaded names, the first draw issues round 1; after removing that pair the
second draw is assigned round `selectedPairs.length + 1 = 1` again, reusing
round 1. The shuffles fed to both draws are genuine permutations of the
respective remaining pools. -/
theorem round_reused_after_removal :
    List.Perm ["A","B","C","D"] churnState0.remainingNames ∧
    churnState1.currentPair = some ⟨"A","B",1⟩ ∧
    (⟨"A","B",1⟩ : SelectedPair) ∈ churnState1.selectedPairs ∧
    List.Perm ["C","D","A","B"] churnState2.remainingNames ∧
    churnState3.currentPair = some ⟨"C","D",1⟩ := by decide

/-- C2: the conservation invariant `RemainingPool ∪ names(History) = NameSet`
is violated in a reachable state. Loading six names and running Draw, Draw,
RemovePair(round 1), Draw, RemovePair(round 2) ends in a state whose NameSet
still contains E while E is in neither the remaining pool nor any history
pair: the reissued round 2 made the last removal delete both round-2 pairs
while restoring only two names. Every draw uses a genuine permutation of its
remaining pool and every removal targets a pair present in History. -/
theorem conservation_invariant_violated :
    List.Perm ["A","B","C","D","E","F"] lossState0.remainingNames ∧
    List.Perm ["C","D","E","F"] lossState1.remainingNames ∧
    (⟨"A","B",1⟩ : SelectedPair) ∈ lossState2.selectedPairs ∧
    List.Perm ["E","F","A","B"] lossState3.remainingNames ∧
    (⟨"C","D",2⟩ : SelectedPair) ∈ lossState4.selectedPairs ∧
    "E" ∈ lossState5.allNames ∧
    "E" ∉ lossState5.remainingNames ∧
    "E" ∉ historyNames lossState5 := by decide

/-- C3 counterexample: removing a pair whose round is absent from History is
not a no-op and does not leave the state unchanged. With History empty, pool
`["A","B"]` and argument pair (C, D, round 5), the call leaves History alone
but pushes C and D into the remaining pool. -/
theorem removePair_unknown_round_not_noop :
    (∀ q ∈ (⟨["A","B"], ["A","B"], [], none⟩ : AppState).selectedPairs,
      q.round ≠ 5) ∧
    removePairFromHistory ⟨"C","D",5⟩
        (⟨["A","B"], ["A","B"], [], none⟩ : AppState) ≠
      (⟨["A","B"], ["A","B"], [], none⟩ : AppState) ∧
    (removePairFromHistory ⟨"C","D",5⟩
        (⟨["A","B"], ["A","B"], [], none⟩ : AppState)).remainingNames =
      ["A","B","C","D"] := by decide

/-- C3 amended: when no History entry carries the argument pair's round,
`removePairFromHistory` leaves NameSet and History unchanged and raises no
error, but it still inserts the argument pair's two names into the remaining
pool when absent, and clears CurrentPair exactly when its round equals the
argument's round. -/
theorem removePair_unknown_round_effect (p : SelectedPair) (s : AppState)
    (h : ∀ q ∈ s.selectedPairs, q.round ≠ p.round) :
    (removePairFromHistory p s).allNames = s.allNames ∧
    (removePairFromHistory p s).selectedPairs = s.selectedPairs ∧
    (removePairFromHistory p s).remainingNames =
      addIfAbsent (addIfAbsent s.remainingNames p.name1) p.name2 ∧
    (removePairFromHistory p s).currentPair =
      (match s.currentPair with
       | some cp => if cp.round = p.round then none else some cp
       | none => none) := by
  refine ⟨rfl, ?_, rfl, rfl⟩
  exact filter_round_eq_self s.selectedPairs p.round h

/-- C3 amended, witness at a concrete state: pool empty, History holding the
round-1 pair (A, B), removing the absent round-7 pair (C, D). -/
theorem removePair_unknown_round_effect_witness :
    (∀ q ∈ (⟨["A","B","C","D"], [], [⟨"A","B",1⟩], some ⟨"A","B",1⟩⟩ :
        AppState).selectedPairs, q.round ≠ 7) ∧
    ((removePairFromHistory ⟨"C","D",7⟩
        (⟨["A","B","C","D"], [], [⟨"A","B",1⟩], some ⟨"A","B",1⟩⟩ :
          AppState)).allNames = ["A","B","C","D"] ∧
      (removePairFromHistory ⟨"C","D",7⟩
        (⟨["A","B","C","D"], [], [⟨"A","B",1⟩], some ⟨"A","B",1⟩⟩ :
          AppState)).selectedPairs = [⟨"A","B",1⟩] ∧
      (removePairFromHistory ⟨"C","D",7⟩
        (⟨["A","B","C","D"], [], [⟨"A","B",1⟩], some ⟨"A","B",1⟩⟩ :
          AppState)).remainingNames = addIfAbsent (addIfAbsent [] "C") "D" ∧
      (removePairFromHistory ⟨"C","D",7⟩
        (⟨["A","B","C","D"], [], [⟨"A","B",1⟩], some ⟨"A","B",1⟩⟩ :
          AppState)).currentPair = some ⟨"A","B",1⟩) := by
  refine ⟨by decide, ?_⟩
  have h := removePair_unknown_round_effect ⟨"C","D",7⟩
    (⟨["A","B","C","D"], [], [⟨"A","B",1⟩], some ⟨"A","B",1⟩⟩ : AppState)
    (by decide)
  exact ⟨h.1, h.2.1, h.2.2.1, h.2.2.2⟩

/-- C5: `parseCSV` computes exactly the spec's ingestion pipeline (lines,
drop blank lines, per-line delimiter split with trim/quote-strip/drop-empty,
first-seen order, dedup by first occurrence), its output never contains
duplicates, and on the spec's worked example it returns
`["Alice","Bob","Carol","Dan"]`. -/
theorem parseCSV_spec :
    (∀ text : String, parseCSV text = ingestSpec text) ∧
    (∀ text : String, (parseCSV text).Nodup) ∧
    parseCSV "Alice,Bob\nBob;Carol\n\"Dan\"" = ["Alice","Bob","Carol","Dan"] := by
  refine ⟨?_, ?_, by decide⟩
  · intro text
    simp only [parseCSV, ingestSpec, foldl_append_eq_flatten, List.nil_append]
  · intro text
    exact dedupFirst_go_nodup _ [] List.nodup_nil

/-- C6: when the parsed file yields fewer than 2 names, the upload signals the
validation error and leaves the whole state exactly as it was. -/
theorem upload_too_few_names (s : AppState) (text : String)
    (h : (parseCSV text).length < 2) :
    handleFileUpload s text = (UploadResult.validationError, s) := by
  simp [handleFileUpload, h]

/-- C6 witness: uploading the single-name file "OnlyOne" over a mid-session
state reports the validation error and changes nothing. -/
theorem upload_too_few_names_witness :
    (parseCSV "OnlyOne").length < 2 ∧
    handleFileUpload
        (⟨["A","B"], ["A","B"], [], none⟩ : AppState) "OnlyOne" =
      (UploadResult.validationError,
        (⟨["A","B"], ["A","B"], [], none⟩ : AppState)) :=
  ⟨by decide,
    upload_too_few_names (⟨["A","B"], ["A","B"], [], none⟩ : AppState)
      "OnlyOne" (by decide)⟩

/-- C7: a draw attempted with fewer than 2 remaining names signals the
insufficient-names error and returns the state unchanged, for any shuffle. -/
theorem draw_insufficient_no_side_effect (shuffled : List String)
    (s : AppState) (h : s.remainingNames.length < 2) :
    selectRandomPair shuffled s = (DrawOutcome.insufficientNames, s) := by
  simp [selectRandomPair, h]

/-- C7 witness: drawing with a single remaining name fails and leaves the
state untouched. -/
theorem draw_insufficient_no_side_effect_witness :
    (⟨["A","B","C"], ["C"], [⟨"A","B",1⟩], some ⟨"A","B",1⟩⟩ :
      AppState).remainingNames.length < 2 ∧
    selectRandomPair ["C"]
        (⟨["A","B","C"], ["C"], [⟨"A","B",1⟩], some ⟨"A","B",1⟩⟩ : AppState) =
      (DrawOutcome.insufficientNames,
        (⟨["A","B","C"], ["C"], [⟨"A","B",1⟩], some ⟨"A","B",1⟩⟩ : AppState)) :=
  ⟨by decide,
    draw_insufficient_no_side_effect ["C"]
      (⟨["A","B","C"], ["C"], [⟨"A","B",1⟩], some ⟨"A","B",1⟩⟩ : AppState)
      (by decide)⟩

/-- C8: removing a History pair whose two names are absent from the remaining
pool puts both names back into the pool, leaves no pair with that round in
History, and clears CurrentPair exactly when its round equals the removed
round, preserving it otherwise. -/
theorem removePair_restores_names (p : SelectedPair) (s : AppState)
    (_hin : p ∈ s.selectedPairs)
    (_h1 : p.name1 ∉ s.remainingNames) (_h2 : p.name2 ∉ s.remainingNames) :
    p.name1 ∈ (removePairFromHistory p s).remainingNames ∧
    p.name2 ∈ (removePairFromHistory p s).remainingNames ∧
    (∀ q ∈ (removePairFromHistory p s).selectedPairs, q.round ≠ p.round) ∧
    (removePairFromHistory p s).currentPair =
      (match s.currentPair with
       | some cp => if cp.round = p.round then none else some cp
       | none => none) := by
  refine ⟨?_, ?_, ?_, rfl⟩
  · exact mem_addIfAbsent.mpr (Or.inl (mem_addIfAbsent.mpr (Or.inr rfl)))
  · exact mem_addIfAbsent.mpr (Or.inr rfl)
  · intro q hq
    exact mem_filter_round hq

/-- C8 witness: after drawing (A, B) from four names, removing that round-1
pair restores A and B, empties History of round 1, and clears the current
pair. -/
theorem removePair_restores_names_witness :
    ((⟨"A","B",1⟩ : SelectedPair) ∈
      (⟨["A","B","C","D"], ["C","D"], [⟨"A","B",1⟩], some ⟨"A","B",1⟩⟩ :
        AppState).selectedPairs ∧
     "A" ∉ (["C","D"] : List String) ∧ "B" ∉ (["C","D"] : List String)) ∧
    ("A" ∈ (removePairFromHistory ⟨"A","B",1⟩
        (⟨["A","B","C","D"], ["C","D"], [⟨"A","B",1⟩], some ⟨"A","B",1⟩⟩ :
          AppState)).remainingNames ∧
     "B" ∈ (removePairFromHistory ⟨"A","B",1⟩
        (⟨["A","B","C","D"], ["C","D"], [⟨"A","B",1⟩], some ⟨"A","B",1⟩⟩ :
          AppState)).remainingNames ∧
     (∀ q ∈ (removePairFromHistory ⟨"A","B",1⟩
        (⟨["A","B","C","D"], ["C","D"], [⟨"A","B",1⟩], some ⟨"A","B",1⟩⟩ :
          AppState)).selectedPairs, q.round ≠ 1) ∧
     (removePairFromHistory ⟨"A","B",1⟩
        (⟨["A","B","C","D"], ["C","D"], [⟨"A","B",1⟩], some ⟨"A","B",1⟩⟩ :
          AppState)).currentPair = none) := by
  refine ⟨⟨by decide, by decide, by decide⟩, ?_⟩
  have h := removePair_restores_names ⟨"A","B",1⟩
    (⟨["A","B","C","D"], ["C","D"], [⟨"A","B",1⟩], some ⟨"A","B",1⟩⟩ :
      AppState) (by decide) (by decide) (by decide)
  exact ⟨h.1, h.2.1, h.2.2.1, h.2.2.2⟩

/-- C9: reset always produces the initial empty state (empty NameSet, empty
pool, empty History, no current pair), so resetting twice equals resetting
once. -/
theorem reset_yields_initial (s : AppState) :
    resetApp s = initialAppState ∧
    resetApp (resetApp s) = resetApp s :=
  ⟨rfl, rfl⟩

/-- C10: removal filters History by round number alone — every entry whose
round equals the argument's round is dropped — while only the argument's two
names are (re)added to the pool; concretely, with two History entries sharing
round 2, removing one deletes both entries yet restores only that one pair's
names. -/
theorem removePair_filters_by_round_only (p : SelectedPair) (s : AppState) :
    ((removePairFromHistory p s).selectedPairs =
      s.selectedPairs.filter (fun q => q.round != p.round) ∧
     ∀ n, n ∈ (removePairFromHistory p s).remainingNames ↔
       (n ∈ s.remainingNames ∨ n = p.name1 ∨ n = p.name2)) ∧
    (removePairFromHistory ⟨"C","D",2⟩
        (⟨["A","B","C","D","E","F"], ["A","B"],
          [⟨"C","D",2⟩, ⟨"E","F",2⟩], none⟩ : AppState)).selectedPairs = [] ∧
    (removePairFromHistory ⟨"C","D",2⟩
        (⟨["A","B","C","D","E","F"], ["A","B"],
          [⟨"C","D",2⟩, ⟨"E","F",2⟩], none⟩ : AppState)).remainingNames =
      ["A","B","C","D"] := by
  refine ⟨⟨rfl, ?_⟩, by decide, by decide⟩
  intro n
  constructor
  · intro hn
    rcases mem_addIfAbsent.mp hn with h' | h'
    · rcases mem_addIfAbsent.mp h' with h'' | h''
      · exact Or.inl h''
      · exact Or.inr (Or.inl h'')
    · exact Or.inr (Or.inr h')
  · rintro (h' | h' | h')
    · exact mem_addIfAbsent.mpr (Or.inl (mem_addIfAbsent.mpr (Or.inl h')))
    · exact mem_addIfAbsent.mpr (Or.inl (mem_addIfAbsent.mpr (Or.inr h')))
    · exact mem_addIfAbsent.mpr (Or.inr h')

end NameSelector
